import Mathlib

/-!
Verification development for the kaggleRAG answer-extraction and retry
pipeline (`src/kaggleRAG/answer_parser.py` and `src/kaggleRAG/rag_retry.py`).

Python strings are modelled as `List Char` (Lean `Char` is a Unicode scalar
value; lone surrogates, which CPython strings can technically hold, are not
representable and are outside the model).  Python whitespace is modelled by
the six ASCII whitespace characters (the additional Unicode space characters
recognised by `str.strip` / `\s` are outside the model); case-insensitive
regex matching is modelled by ASCII case folding, which agrees with Python
for the ASCII label vocabulary used by the parser.
-/

set_option maxRecDepth 20000
set_option maxHeartbeats 1000000

namespace KaggleRAG

/-- Python strings, modelled as lists of Unicode scalar values. -/
abbrev Str := List Char

/-- The six characters matched by `\s` / stripped by `str.strip()` (ASCII part). -/
def isPyWs (c : Char) : Bool :=
  c = ' ' || c = '\t' || c = '\n' || c = '\r' || c = '\x0b' || c = '\x0c'

/-- Python's `str.strip()` (ASCII-whitespace model). -/
def pyStrip (l : Str) : Str :=
  ((l.dropWhile isPyWs).reverse.dropWhile isPyWs).reverse

/-- A quote character, as stripped by `str.strip('"\'')`. -/
def isQuote (c : Char) : Bool :=
  c = '"' || c = '\''

/-- Python's `str.strip('"\'')`: remove surrounding single/double quote characters. -/
def stripQuotes (l : Str) : Str :=
  ((l.dropWhile isQuote).reverse.dropWhile isQuote).reverse

/-- ASCII lower-casing of one character (model of `str.lower` / `re.IGNORECASE`
for the ASCII alphabet). -/
def lowerAscii (c : Char) : Char :=
  if 'A' ≤ c && c ≤ 'Z' then Char.ofNat (c.toNat + 32) else c

/-- ASCII-lower-case an entire string (model of `str.lower()`). -/
def pyLower (l : Str) : Str := l.map lowerAscii

/-- Case-insensitive (ASCII fold) test that `pat` is a prefix of `t`. -/
def ciPre : Str → Str → Bool
  | [], _ => true
  | _ :: _, [] => false
  | p :: ps, c :: cs => lowerAscii p = lowerAscii c && ciPre ps cs

/-- Case-sensitive prefix test. -/
def litPre : Str → Str → Bool
  | [], _ => true
  | _ :: _, [] => false
  | p :: ps, c :: cs => p = c && litPre ps cs

/-- Whether `pat` occurs (case-sensitively) anywhere in `t`
(model of Python's `pat in t`). -/
def containsSub (pat : Str) : Str → Bool
  | [] => pat.isEmpty
  | t@(_ :: rest) => litPre pat t || containsSub pat rest

/-- Collapse every maximal run of whitespace to a single space character
(model of `re.sub(r'\s+', ' ', value)`). -/
def collapseWs : Str → Str
  | [] => []
  | [c] => [if isPyWs c then ' ' else c]
  | c :: d :: rest =>
    if isPyWs c && isPyWs d then collapseWs (d :: rest)
    else (if isPyWs c then ' ' else c) :: collapseWs (d :: rest)

/-- Python's `str.split(sep)` for a one-character separator
(`"a,,b".split(',') == ['a','','b']`, `"".split(',') == ['']`). -/
def pySplit (sep : Char) : Str → List Str
  | [] => [[]]
  | c :: rest =>
    match pySplit sep rest with
    | [] => [[c]]
    | p :: ps => if c = sep then [] :: p :: ps else (c :: p) :: ps

/-- Number of leading whitespace characters (the span matched by a greedy `\s*`). -/
def wsRun : Str → Nat
  | [] => 0
  | c :: rest => if isPyWs c then wsRun rest + 1 else 0

/-- Membership of the character class `[:\s]` used by the fallback patterns. -/
def isColonWs (c : Char) : Bool := c = ':' || isPyWs c

/-- Number of leading characters in the class `[:\s]`. -/
def colonWsRun : Str → Nat
  | [] => 0
  | c :: rest => if isColonWs c then colonWsRun rest + 1 else 0

/-- JSON values as produced by Python's `json.loads`.  Numbers are restricted
to integers: the pipeline's wire format never uses fractional numbers, and
the parser below rejects them rather than mis-modelling float semantics. -/
inductive Json where
  | null : Json
  | bool (b : Bool) : Json
  | int (n : Int) : Json
  | str (s : Str) : Json
  | arr (xs : List Json) : Json
  | obj (kvs : List (Str × Json)) : Json

/-- JSON insignificant whitespace accepted between tokens by `json.loads`. -/
def isJsonWs (c : Char) : Bool :=
  c = ' ' || c = '\t' || c = '\n' || c = '\r'

/-- Skip JSON insignificant whitespace. -/
def skipWs : Str → Str
  | [] => []
  | c :: rest => if isJsonWs c then skipWs rest else c :: rest

/-- Value of one hexadecimal digit (either case), as in a `\uXXXX` escape. -/
def hexVal (c : Char) : Option Nat :=
  if '0' ≤ c ∧ c ≤ '9' then some (c.toNat - 48)
  else if 'a' ≤ c ∧ c ≤ 'f' then some (c.toNat - 87)
  else if 'A' ≤ c ∧ c ≤ 'F' then some (c.toNat - 55)
  else none

/-- Value of a four-hex-digit group. -/
def hex4Val (a b c d : Char) : Option Nat :=
  match hexVal a, hexVal b, hexVal c, hexVal d with
  | some x, some y, some z, some w => some (((x * 16 + y) * 16 + z) * 16 + w)
  | _, _, _, _ => none

/-- Single-character JSON escapes (`\"`, `\\`, `\/`, `\b`, `\f`, `\n`, `\r`, `\t`). -/
def escChar (c : Char) : Option Char :=
  if c = '"' then some '"'
  else if c = '\\' then some '\\'
  else if c = '/' then some '/'
  else if c = 'b' then some '\x08'
  else if c = 'f' then some '\x0c'
  else if c = 'n' then some '\n'
  else if c = 'r' then some '\r'
  else if c = 't' then some '\t'
  else none

/-- Parse the body of a JSON string literal (after the opening quote), up to
and including the closing quote; returns the decoded characters and the rest
of the input.  Surrogate pairs in `\uXXXX` escapes are combined as Python's
`json.loads` does; an unpaired surrogate is rejected (CPython would build a
lone-surrogate `str`, which a Unicode-scalar string cannot represent).  The
fuel argument only bounds the recursion depth; `parseStringBody` below
supplies one unit per input character, which is always enough because every
step consumes at least one character. -/
def psbF : Nat → Str → Option (Str × Str)
  | 0, _ => none
  | fuel + 1, s =>
    match s with
    | [] => none
    | c :: rest =>
      if c = '"' then some ([], rest)
      else if c = '\\' then
        match rest with
        | [] => none
        | e :: r2 =>
          if e = 'u' then
            match r2 with
            | a :: b :: c2 :: d :: r3 =>
              (match hex4Val a b c2 d with
               | none => none
               | some n =>
                 if 0xD800 ≤ n ∧ n ≤ 0xDBFF then
                   match r3 with
                   | e2 :: e3 :: a2 :: b2 :: c3 :: d2 :: r4 =>
                     if e2 = '\\' ∧ e3 = 'u' then
                       (match hex4Val a2 b2 c3 d2 with
                        | some m =>
                          if 0xDC00 ≤ m ∧ m ≤ 0xDFFF then
                            (match psbF fuel r4 with
                             | some (s, rem) =>
                               some (Char.ofNat
                                 (0x10000 + (n - 0xD800) * 0x400 + (m - 0xDC00)) :: s, rem)
                             | none => none)
                          else none
                        | none => none)
                     else none
                   | _ => none
                 else if 0xDC00 ≤ n ∧ n ≤ 0xDFFF then none
                 else
                   match psbF fuel r3 with
                   | some (s, rem) => some (Char.ofNat n :: s, rem)
                   | none => none)
            | _ => none
          else
            match escChar e with
            | some ec =>
              (match psbF fuel r2 with
               | some (s, rem) => some (ec :: s, rem)
               | none => none)
            | none => none
      else if c.toNat < 0x20 then none
      else
        match psbF fuel rest with
        | some (s, rem) => some (c :: s, rem)
        | none => none

/-- String-literal body parser with sufficient fuel. -/
def parseStringBody (s : Str) : Option (Str × Str) :=
  psbF (s.length + 1) s

/-- Leading decimal-digit run of the input. -/
def digitRun : Str → Str × Str
  | [] => ([], [])
  | c :: rest =>
    if '0' ≤ c ∧ c ≤ '9' then
      match digitRun rest with
      | (ds, rem) => (c :: ds, rem)
    else ([], c :: rest)

/-- Numeric value of a digit run. -/
def digitsVal : Str → Nat
  | [] => 0
  | c :: rest => digitsVal rest + (c.toNat - 48) * 10 ^ rest.length

/-- Parse a JSON integer token (strict JSON grammar: no leading zeros, no
sign other than a leading minus; a following `.`, `e` or `E` would make it a
float, which the model rejects). -/
def parseIntTok : Str → Option (Int × Str)
  | '-' :: rest =>
    match parseIntTok rest with
    | some (n, rem) => if n < 0 then none else some (-n, rem)
    | none => none
  | s =>
    match digitRun s with
    | ([], _) => none
    | (d :: ds, rem) =>
      if d = '0' && ds ≠ [] then none
      else
        match rem with
        | e :: _ => if e = '.' || e = 'e' || e = 'E' then none else some ((digitsVal (d :: ds) : Int), rem)
        | [] => some ((digitsVal (d :: ds) : Int), rem)

/-- Parsing mode for the single fuel-indexed JSON parser: a whole value, the
elements of an array (after `[`), or the members of an object (after the
opening brace), with the values accumulated so far. -/
inductive PMode where
  | value : PMode
  | arrElems (acc : List Json) : PMode
  | objElems (acc : List (Str × Json)) : PMode

/-- Fuel-indexed recursive-descent JSON parser (model of `json.loads`'
grammar).  Structural recursion on the fuel keeps every definition
kernel-reducible. -/
def pj : Nat → PMode → Str → Option (Json × Str)
  | 0, _, _ => none
  | fuel + 1, .value, s =>
    match skipWs s with
    | [] => none
    | c :: r =>
      if c = '\x7b' then
        match skipWs r with
        | '\x7d' :: rem => some (.obj [], rem)
        | r' => pj fuel (.objElems []) r'
      else if c = '[' then
        match skipWs r with
        | ']' :: rem => some (.arr [], rem)
        | r' => pj fuel (.arrElems []) r'
      else if c = '"' then
        match parseStringBody r with
        | some (str, rem) => some (.str str, rem)
        | none => none
      else
        match c :: r with
        | 't' :: 'r' :: 'u' :: 'e' :: rem => some (.bool true, rem)
        | 'f' :: 'a' :: 'l' :: 's' :: 'e' :: rem => some (.bool false, rem)
        | 'n' :: 'u' :: 'l' :: 'l' :: rem => some (.null, rem)
        | t =>
          match parseIntTok t with
          | some (n, rem) => some (.int n, rem)
          | none => none
  | fuel + 1, .arrElems acc, s =>
    match pj fuel .value s with
    | some (v, rem) =>
      (match skipWs rem with
       | ',' :: r => pj fuel (.arrElems (acc ++ [v])) r
       | ']' :: r => some (.arr (acc ++ [v]), r)
       | _ => none)
    | none => none
  | fuel + 1, .objElems acc, s =>
    match skipWs s with
    | '"' :: r =>
      (match parseStringBody r with
       | some (k, rem) =>
         (match skipWs rem with
          | ':' :: r2 =>
            (match pj fuel .value r2 with
             | some (v, rem2) =>
               (match skipWs rem2 with
                | ',' :: r3 => pj fuel (.objElems (acc ++ [(k, v)])) r3
                | '\x7d' :: r3 => some (.obj (acc ++ [(k, v)]), r3)
                | _ => none)
             | none => none)
          | _ => none)
       | none => none)
    | _ => none

/-- Model of Python's `json.loads`: parse one JSON document, allowing
surrounding whitespace and requiring the whole input to be consumed. -/
def pyJsonLoads (s : Str) : Option Json :=
  match pj (2 * s.length + 4) .value s with
  | some (v, rem) => if skipWs rem = [] then some v else none
  | none => none

/-- Lower-case hexadecimal digit, as used by `json.dumps` in `\uXXXX` escapes. -/
def hexDig (n : Nat) : Char :=
  if n < 10 then Char.ofNat (48 + n) else Char.ofNat (87 + n)

/-- Four-digit lower-case hexadecimal rendering of `n % 0x10000`. -/
def hex4 (n : Nat) : Str :=
  [hexDig (n / 4096 % 16), hexDig (n / 256 % 16), hexDig (n / 16 % 16), hexDig (n % 16)]

/-- Encoding of one character inside a JSON string literal, exactly as
Python's `json.dumps` (default `ensure_ascii=True`): printable ASCII other
than `"` and `\` is emitted verbatim, the short escapes are used for the
usual control characters, every other character becomes `\uXXXX` (a
surrogate pair for supplementary-plane characters). -/
def escapeChar (c : Char) : Str :=
  if c = '"' then ['\\', '"']
  else if c = '\\' then ['\\', '\\']
  else if c = '\n' then ['\\', 'n']
  else if c = '\r' then ['\\', 'r']
  else if c = '\t' then ['\\', 't']
  else if c = '\x08' then ['\\', 'b']
  else if c = '\x0c' then ['\\', 'f']
  else if 0x20 ≤ c.toNat ∧ c.toNat ≤ 0x7E then [c]
  else if c.toNat < 0x10000 then '\\' :: 'u' :: hex4 c.toNat
  else
    ('\\' :: 'u' :: hex4 (0xD800 + (c.toNat - 0x10000) / 0x400)) ++
    ('\\' :: 'u' :: hex4 (0xDC00 + (c.toNat - 0x10000) % 0x400))

/-- JSON string literal (with quotes) for a Python string, as `json.dumps`. -/
def dumpString (s : Str) : Str :=
  '"' :: (s.flatMap escapeChar) ++ ['"']

/-- The element list of a dumped JSON array: `", "`-separated string
literals (Python's default `item_separator`). -/
def dumpElems : List Str → Str
  | [] => []
  | [x] => dumpString x
  | x :: y :: rest => dumpString x ++ ',' :: ' ' :: dumpElems (y :: rest)

/-- Model of `json.dumps` on a list of strings (the only use in the source:
`json.dumps(answer.ref_id)`). -/
def pyJsonDumps (l : List Str) : Str :=
  '[' :: dumpElems l ++ [']']

/-- Python's `str()` rendering of a decoded JSON value, used by the
pydantic pre-validators' `str(v)` branch (`None → "None"`, `True → "True"`,
containers in `repr` form).  Only the scalar cases are ever reached by the
theorems below; the container cases are a best-effort `repr` model. -/
def pyStrOfJson : Json → Str
  | .null => "None".toList
  | .bool true => "True".toList
  | .bool false => "False".toList
  | .int n => (toString n).toList
  | .str s => s
  | .arr xs => '[' :: sepByCommaRepr xs ++ [']']
  | .obj kvs => '\x7b' :: sepByCommaReprKV kvs ++ ['\x7d']
where
  /-- `repr` of one element inside a container (`str` values get quotes). -/
  reprElem : Json → Str
    | .str s => '\'' :: s ++ ['\'']
    | .null => "None".toList
    | .bool true => "True".toList
    | .bool false => "False".toList
    | .int n => (toString n).toList
    | .arr xs => '[' :: sepByCommaRepr xs ++ [']']
    | .obj kvs => '\x7b' :: sepByCommaReprKV kvs ++ ['\x7d']
  sepByCommaRepr : List Json → Str
    | [] => []
    | [x] => reprElem x
    | x :: y :: rest => reprElem x ++ ',' :: ' ' :: sepByCommaRepr (y :: rest)
  sepByCommaReprKV : List (Str × Json) → Str
    | [] => []
    | [(k, v)] => '\'' :: k ++ '\'' :: ':' :: ' ' :: reprElem v
    | (k, v) :: y :: rest =>
      '\'' :: k ++ '\'' :: ':' :: ' ' :: reprElem v ++ ',' :: ' ' :: sepByCommaReprKV (y :: rest)

/-- The sentinel marking an intentionally empty field. -/
def isBlank : Str := "is_blank".toList

/-- The parsed answer record (`RAGAnswer` in `answer_parser.py`): one
validated answer to one question.  `ref_id` is the only sequence-valued
field; every other field is a string. -/
structure RAGAnswer where
  id : Str
  question : Str
  answer : Str
  answer_value : Str
  answer_unit : Str
  ref_id : List Str
  supporting_materials : Str
  explanation : Str
deriving DecidableEq, Repr

/-- The `parse_ref_id` pre-validator on a *string* input: returns the Python
value the validator hands to pydantic's `List[str]` shape check (so its
elements are still arbitrary JSON/Python values when the JSON branch fires).
Cascade, exactly as in the source: sentinel/empty → `[]`; a trimmed input
that starts with `[`, ends with `]` and decodes as JSON → the decoded list;
otherwise split on commas (if any), trimming whitespace then quote
characters around each piece; otherwise a single trimmed bare token. -/
def parseRefId (v : Str) : List Json :=
  let t := pyStrip v
  if t = isBlank || t = [] then []
  else
    let jsonBranch : Option (List Json) :=
      if t.head? = some '[' && t.getLast? = some ']' then
        match pyJsonLoads t with
        | some (.arr xs) => some xs
        | _ => none
      else none
    match jsonBranch with
    | some xs => xs
    | none =>
      if ',' ∈ t then
        (pySplit ',' t).map (fun p => .str (stripQuotes (pyStrip p)))
      else [.str (stripQuotes (pyStrip t))]

/-- Pydantic-v1 element validation for `List[str]`: strings pass through,
ints/bools are coerced by `str()`, anything else is a validation error. -/
def coerceElem : Json → Except Str Str
  | .str s => .ok s
  | .int n => .ok (toString n).toList
  | .bool true => .ok "True".toList
  | .bool false => .ok "False".toList
  | _ => .error "str type expected".toList

/-- Element-wise validation of a decoded `ref_id` list (left-to-right,
first failure wins). -/
def coerceElems : List Json → Except Str (List Str)
  | [] => .ok []
  | x :: xs =>
    match coerceElem x, coerceElems xs with
    | .ok s, .ok rest => .ok (s :: rest)
    | .error e, _ => .error e
    | .ok _, .error e => .error e

/-- Pydantic-v1 validation of the `answer` field (a plain `str` field with
no pre-validator): strings pass through unchanged (not stripped), numbers
and bools are coerced via `str()`, `None`/lists/objects are errors. -/
def coerceAnswer : Json → Except Str Str
  | .str s => .ok s
  | .int n => .ok (toString n).toList
  | .bool true => .ok "True".toList
  | .bool false => .ok "False".toList
  | _ => .error "none is not an allowed value".toList

/-- The shared pre-validator of `answer_value`, `answer_unit`,
`supporting_materials` and `explanation`: strings are stripped, `None`
becomes the sentinel, any other value is rendered with `str()` (total — this
validator can never fail). -/
def coerceOptStr : Json → Str
  | .str s => pyStrip s
  | .null => isBlank
  | v => pyStrOfJson v

/-- The full `ref_id` validation pipeline for a JSON-decoded value
(`parse_ref_id` pre-validator followed by the `List[str]` shape/element
check).  Python truthiness drives the `v if v else []` branch: `None`,
`False`, `0`, `[]` and `{}` are falsy and yield the empty list; any other
non-list, non-string value fails the shape check. -/
def refIdFromJson : Json → Except Str (List Str)
  | .str s => coerceElems (parseRefId s)
  | .null => .ok []
  | .bool false => .ok []
  | .bool true => .error "value is not a valid list".toList
  | .int n => if n = 0 then .ok [] else .error "value is not a valid list".toList
  | .arr xs => coerceElems xs
  | .obj [] => .ok []
  | .obj (_ :: _) => .error "value is not a valid list".toList

/-- Capture of the lazy group `(.+?)` under the lookahead
`(?=\n(?:stop₁|stop₂|…)|$)` with `re.DOTALL`: take characters until the
first later position holding a newline followed (case-insensitively) by one
of the stop labels, or the end of the input (`$`; the input these run on is
already `strip()`ed, so `$` is exactly end-of-input).  The check starts at
the second character because the capture must be non-empty. -/
def captureRest (stops : List Str) : Str → Str
  | [] => []
  | c :: rest =>
    if c = '\n' && stops.any (fun st => ciPre st rest) then []
    else c :: captureRest stops rest

/-- Search for a primary labelled-field pattern
`Label:\s*(.+?)(?=\n(?:stops)|$)` (IGNORECASE, DOTALL): find the leftmost
case-insensitive occurrence of the literal label, skip the whitespace run
after it, and capture lazily up to the first stop.  An occurrence with
nothing after the label cannot produce a non-empty capture; on the
`strip()`ed inputs used by `parse_answer` no later occurrence can then fit,
so the search fails.  The captured value is `strip()`ed and its internal
whitespace collapsed, as in the source. -/
def primSearch (label : Str) (stops : List Str) : Str → Option Str
  | [] => none
  | t@(_ :: rest) =>
    if ciPre label t then
      (if label.length < t.length then
        let u := t.drop label.length
        some (collapseWs (pyStrip (captureRest stops (u.drop (wsRun u)))))
      else primSearch label stops rest)
    else primSearch label stops rest

/-- Search for a fallback pattern
`(?:(?:lab₁|lab₂)[:\s]*)\s*(.+?)(?=\n(?:stops)|$)` (IGNORECASE, DOTALL).
At each position, the first alternative label that matches with at least one
character left after it yields the match.  If the `[:\s]*` run after the
label reaches the end of the (stripped) input, the engine backtracks the run
by one character — necessarily a `:` — and captures it, so the value is
`":"`; otherwise the capture runs from the end of the class run to the first
stop, then is stripped and whitespace-collapsed. -/
def fbSearch (labels : List Str) (stops : List Str) : Str → Option Str
  | [] => none
  | t@(_ :: rest) =>
    match labels.find? (fun lab => ciPre lab t && decide (lab.length < t.length)) with
    | some lab =>
      let u := t.drop lab.length
      let r := colonWsRun u
      if r = u.length then some [':']
      else some (collapseWs (pyStrip (captureRest stops (u.drop r))))
    | none => fbSearch labels stops rest

/-- One field's label data: the primary pattern's literal label (with its
colon), its stop labels, the fallback alternatives and their stop labels. -/
structure FieldPat where
  primLabel : Str
  primStops : List Str
  fbLabels : List Str
  fbStops : List Str

/-- Extraction of one field: primary pattern first, then the fallback
pattern, else the sentinel (exactly the per-field loop of `parse_answer`). -/
def extractField (p : FieldPat) (text : Str) : Str :=
  match primSearch p.primLabel p.primStops text with
  | some v => v
  | none =>
    match fbSearch p.fbLabels p.fbStops text with
    | some v => v
    | none => isBlank

/-- `self.patterns['answer']` / `self.fallback_patterns['answer']`. -/
def patAnswer : FieldPat :=
  ⟨"Answer:".toList,
   ["Answer Value".toList, "Answer Unit".toList, "Reference ID".toList,
    "Supporting Materials".toList, "Explanation".toList],
   ["Answer".toList, "答案".toList],
   ["Answer".toList, "Answer Value".toList, "答案".toList, "答案值".toList,
    "Reference".toList, "参考".toList, "Supporting".toList, "支撑".toList,
    "Explanation".toList, "解释".toList]⟩

/-- `self.patterns['answer_value']` / fallback. -/
def patAnswerValue : FieldPat :=
  ⟨"Answer Value:".toList,
   ["Answer Unit".toList, "Reference ID".toList, "Supporting Materials".toList,
    "Explanation".toList],
   ["Answer Value".toList, "答案值".toList],
   ["Answer Unit".toList, "答案单位".toList, "Reference".toList, "参考".toList,
    "Supporting".toList, "支撑".toList, "Explanation".toList, "解释".toList]⟩

/-- `self.patterns['answer_unit']` / fallback. -/
def patAnswerUnit : FieldPat :=
  ⟨"Answer Unit:".toList,
   ["Reference ID".toList, "Supporting Materials".toList, "Explanation".toList],
   ["Answer Unit".toList, "答案单位".toList],
   ["Reference".toList, "参考".toList, "Supporting".toList, "支撑".toList,
    "Explanation".toList, "解释".toList]⟩

/-- `self.patterns['ref_id']` / fallback. -/
def patRefId : FieldPat :=
  ⟨"Reference ID:".toList,
   ["Supporting Materials".toList, "Explanation".toList],
   ["Reference ID".toList, "参考ID".toList, "参考文献".toList],
   ["Supporting".toList, "支撑".toList, "Explanation".toList, "解释".toList]⟩

/-- `self.patterns['supporting_materials']` / fallback. -/
def patSupporting : FieldPat :=
  ⟨"Supporting Materials:".toList,
   ["Explanation".toList],
   ["Supporting Materials".toList, "支撑材料".toList, "引用".toList, "材料".toList],
   ["Explanation".toList, "解释".toList]⟩

/-- `self.patterns['explanation']` / fallback (lookahead is `$` only). -/
def patExplanation : FieldPat :=
  ⟨"Explanation:".toList, [],
   ["Explanation".toList, "解释".toList], []⟩

/-- The canonical refusal sentence installed by the explicit-refusal stage. -/
def refusalSentence : Str :=
  "Unable to answer with confidence based on the provided documents.".toList

/-- The values of `parsed_data` after the per-field pattern loop. -/
structure ParsedFields where
  answer : Str
  answer_value : Str
  answer_unit : Str
  ref_id : Str
  supporting_materials : Str
  explanation : Str
deriving DecidableEq

/-- The per-field pattern loop of `parse_answer` over the cleaned text. -/
def runFieldLoop (cleaned : Str) : ParsedFields :=
  ⟨extractField patAnswer cleaned,
   extractField patAnswerValue cleaned,
   extractField patAnswerUnit cleaned,
   extractField patRefId cleaned,
   extractField patSupporting cleaned,
   extractField patExplanation cleaned⟩

/-- The explicit-refusal stage: if every field is still the sentinel and the
lower-cased text contains "unable to answer", install the refusal sentence. -/
def applyRefusal (cleaned : Str) (pd : ParsedFields) : ParsedFields :=
  if pd.answer = isBlank && pd.answer_value = isBlank && pd.answer_unit = isBlank &&
     pd.ref_id = isBlank && pd.supporting_materials = isBlank && pd.explanation = isBlank &&
     containsSub "unable to answer".toList (pyLower cleaned) then
    { pd with answer := refusalSentence }
  else pd

/-- The first-line heuristic: if `answer` is still the sentinel and the first
line of the text has more than 10 characters once stripped and does not look
like an embedded object or a labelled field (`startswith` is
case-sensitive), use that line as the answer. -/
def applyFirstLine (cleaned : Str) (pd : ParsedFields) : ParsedFields :=
  if pd.answer = isBlank then
    let l0 := pyStrip (cleaned.takeWhile (· ≠ '\n'))
    if 10 < l0.length && !(litPre ['\x7b'] l0) && !(litPre "Answer:".toList l0) then
      { pd with answer := l0 }
    else pd
  else pd

/-- Record construction at the end of the labelled stages (all inputs are
strings here): the construction is wrapped in `try/except` in the source, so
a `ref_id` element validation failure yields `None` instead of raising. -/
def mkFromFields (qid qtext : Str) (pd : ParsedFields) : Option RAGAnswer :=
  match coerceElems (parseRefId pd.ref_id) with
  | .error _ => none
  | .ok refs =>
    some ⟨qid, qtext, pd.answer, pyStrip pd.answer_value, pyStrip pd.answer_unit,
          refs, pyStrip pd.supporting_materials, pyStrip pd.explanation⟩

/-- Stages 2–5 of `parse_answer` (everything after the embedded-object
stage): field loop, refusal stage, first-line heuristic, final decision. -/
def labeledStages (cleaned qid qtext : Str) : Option RAGAnswer :=
  let pd := applyFirstLine cleaned (applyRefusal cleaned (runFieldLoop cleaned))
  if pd.answer ≠ isBlank then mkFromFields qid qtext pd else none

/-- The span matched by `re.search(r'\{.*\}', text, re.DOTALL)`: from the
first opening brace to the last closing brace, if the latter comes after the
former. -/
def firstBraceSpan (t : Str) : Option Str :=
  match t.findIdx? (· = '\x7b'), t.reverse.findIdx? (· = '\x7d') with
  | some i, some rj =>
    let j := t.length - 1 - rj
    if i < j then some ((t.drop i).take (j + 1 - i)) else none
  | _, _ => none

/-- Construction of a `RAGAnswer` from a decoded embedded object
(`_try_parse_json`): missing keys default to the sentinel (empty list for
`ref_id`); only `json.JSONDecodeError` is caught in the source, so a
pydantic `ValidationError` raised here propagates out of the extractor. -/
def ragFromJson (qid qtext : Str) (j : Json) : Except Str RAGAnswer := do
  let get := fun (k : Str) (dflt : Json) =>
    match j with
    | .obj kvs => ((kvs.reverse.find? (fun kv => kv.1 = k)).map (·.2)).getD dflt
    | _ => dflt
  let ans ← coerceAnswer (get "answer".toList (.str isBlank))
  let refs ← refIdFromJson (get "ref_id".toList (.arr []))
  pure ⟨qid, qtext, ans,
        coerceOptStr (get "answer_value".toList (.str isBlank)),
        coerceOptStr (get "answer_unit".toList (.str isBlank)),
        refs,
        coerceOptStr (get "supporting_materials".toList (.str isBlank)),
        coerceOptStr (get "explanation".toList (.str isBlank))⟩

/-- The embedded-object stage (`_try_parse_json`): no brace span or a JSON
decoding error is silently ignored (`.ok none`); a span that decodes but
fails record validation raises (`.error`), since only `JSONDecodeError` is
caught in the source. -/
def tryParseJson (cleaned qid qtext : Str) : Except Str (Option RAGAnswer) :=
  match firstBraceSpan cleaned with
  | none => .ok none
  | some span =>
    match pyJsonLoads span with
    | none => .ok none
    | some j =>
      match ragFromJson qid qtext j with
      | .ok r => .ok (some r)
      | .error e => .error e

/-- The full extractor `AnswerParser.parse_answer`, as a function that can
also signal an uncaught Python exception (`.error`): empty or
whitespace-only input fails (`.ok none`); otherwise the embedded-object
stage runs first and its result, when it produces a record or raises, is
final; otherwise the labelled stages decide. -/
def parseAnswerE (responseText qid qtext : Str) : Except Str (Option RAGAnswer) :=
  if responseText = [] || pyStrip responseText = [] then .ok none
  else
    let cleaned := pyStrip responseText
    match tryParseJson cleaned qid qtext with
    | .error e => .error e
    | .ok (some r) => .ok (some r)
    | .ok none => .ok (labeledStages cleaned qid qtext)

/-- The failure marker stored in a failure record's `answer` field: the
source literal `"查询失败"`, "query failed". -/
def failMarker : Str := "查询失败".toList

/-- The quality score of `RAGRetryQuery._calculate_quality_score`
(a Python float; modelled in ℚ, which is exact for these decimal
constants): +0.3 for a non-sentinel answer, +0.2 for a non-empty `ref_id`,
+0.2 for a non-sentinel value, +0.15 each for materials and explanation,
capped at 1. -/
def calcQualityScore (a : RAGAnswer) : ℚ :=
  let s : ℚ :=
    (if a.answer ≠ [] ∧ a.answer ≠ isBlank then 3/10 else 0) +
    (if a.ref_id ≠ [] then 2/10 else 0) +
    (if a.answer_value ≠ [] ∧ a.answer_value ≠ isBlank then 2/10 else 0) +
    (if a.supporting_materials ≠ [] ∧ a.supporting_materials ≠ isBlank then 3/20 else 0) +
    (if a.explanation ≠ [] ∧ a.explanation ≠ isBlank then 3/20 else 0)
  min s 1

/-- The `explanation` value computed by `_create_failure_record` before the
record validator strips it: a prefixed 200-character truncation with an
ellipsis when the last response is longer than 200 characters, the response
itself when non-empty, and the placeholder `"无响应"` ("no response") when
no response was obtained (or the last response was the empty string, which
is falsy in Python). -/
def failExplanation : Option Str → Str
  | none => "无响应".toList
  | some t =>
    if 200 < t.length then "最后响应: ".toList ++ t.take 200 ++ "...".toList
    else if t = [] then "无响应".toList else t

/-- `RAGRetryQuery._create_failure_record`: the synthesized failure record.
`supporting_materials` carries `"查询失败: " ++ str(last_error)` when a last
error exists and `"解析失败"` ("parse failed") otherwise; the record
validators strip `answer_value`/`answer_unit`/`supporting_materials`/
`explanation` (the stripped sentinel is itself, written directly), and
`parse_ref_id` maps the empty list to itself. -/
def failureRecord (qid q : Str) (lastResp : Option Str) (lastErr : Option Str) : RAGAnswer :=
  let errorInfo : Str :=
    match lastErr with
    | some e => "查询失败: ".toList ++ e
    | none => "解析失败".toList
  ⟨qid, q, failMarker, isBlank, isBlank, [],
   pyStrip errorInfo, pyStrip (failExplanation lastResp)⟩

/-- One call of the external collaborator `rag.aquery`: it either returns a
response text or raises an exception with a message. -/
inductive AskOutcome where
  | resp (t : Str) : AskOutcome
  | exn (msg : Str) : AskOutcome

/-- The retry loop of `RAGRetryQuery.query_with_retry`, with the remaining
attempt count as the structural argument (`attempt + rem = maxRetries + 1`
throughout a run).  Returns the produced record together with the number of
`ask` invocations.  Branches, exactly as in the source: a successful parse
returns at once; a parse failure retries while attempts remain and
otherwise returns the failure record with the literal reason
`"格式解析失败"` ("format parse failure"); any exception (from the call or
from the extractor) is caught, recorded as the last error, and drops into
the post-loop failure record when it happens on the final attempt.
`last_response` is updated only when the call itself returned. -/
def qwrAux (ask : Nat → AskOutcome) (qid q : Str) :
    Nat → Nat → Option Str → Option Str → RAGAnswer × Nat
  | 0, _, lastResp, lastErr => (failureRecord qid q lastResp lastErr, 0)
  | rem + 1, attempt, lastResp, lastErr =>
    match ask attempt with
    | .exn m =>
      let r := qwrAux ask qid q rem (attempt + 1) lastResp (some m)
      (r.1, r.2 + 1)
    | .resp t =>
      match parseAnswerE t qid q with
      | .ok (some rec) => (rec, 1)
      | .ok none =>
        (match rem with
         | 0 => (failureRecord qid q (some t) (some "格式解析失败".toList), 1)
         | rem' + 1 =>
           let r := qwrAux ask qid q (rem' + 1) (attempt + 1) (some t) lastErr
           (r.1, r.2 + 1))
      | .error m =>
        let r := qwrAux ask qid q rem (attempt + 1) (some t) (some m)
        (r.1, r.2 + 1)

/-- `RAGRetryQuery.query_with_retry` (`resolve`): run attempts `0` to
`maxRetries` inclusive; always returns a record, never an exception. -/
def queryWithRetry (ask : Nat → AskOutcome) (qid q : Str) (maxRetries : Nat) :
    RAGAnswer × Nat :=
  qwrAux ask qid q (maxRetries + 1) 0 none none

/-- What one batch item's awaited body does: either complete with a record
(the contractual behaviour of `query_with_retry`) or raise (defended
against in `process_batch`). -/
inductive ItemOutcome where
  | ok (r : RAGAnswer) : ItemOutcome
  | raise (msg : Str) : ItemOutcome

/-- `process_single_question`'s result for one item: a raised exception is
caught and converted to a failure record for that item's slot
(`_create_failure_record` with no last response). -/
def runSingle (qid qtext : Str) (outcome : ItemOutcome) : RAGAnswer :=
  match outcome with
  | .ok r => r
  | .raise m => failureRecord qid qtext none (some m)

/-- `BatchRAGQuery.process_batch` as a function of the per-item outcomes:
`asyncio.gather` returns one result per task, positionally in task order
(never in completion order), so the output is the slot-indexed map of the
converted outcomes. -/
def processBatch (qs : List (Str × Str)) (behav : Nat → ItemOutcome) : List RAGAnswer :=
  qs.enum.map (fun iq => runSingle iq.2.1 iq.2.2 (behav iq.1))

/-- The aggregate statistics of `BatchRAGQuery.get_statistics` (ratios in
ℚ; Python uses floats, which are exact for the comparisons proved here). -/
structure BatchStats where
  total : Nat
  successful : Nat
  failed : Nat
  success_rate : ℚ
  average_quality_score : ℚ
  quality_threshold : ℚ
deriving DecidableEq

/-- A record that counts as successful in the aggregate statistics:
`r.answer != "查询失败"`. -/
def isSuccess (r : RAGAnswer) : Bool := r.answer ≠ failMarker

/-- `BatchRAGQuery.get_statistics`: totals, the success count (`answer`
different from the failure marker), and the guarded ratios — both divisions
are conditional in the source (`if total > 0`, `if quality_scores`), so the
empty cases yield 0 instead of a `ZeroDivisionError`. -/
def getStatistics (qualityThreshold : ℚ) (results : List RAGAnswer) : BatchStats :=
  let total := results.length
  let succ := results.filter isSuccess
  let successful := succ.length
  let scores := succ.map calcQualityScore
  { total := total
    successful := successful
    failed := total - successful
    success_rate := if 0 < total then (successful : ℚ) / (total : ℚ) else 0
    average_quality_score := if scores ≠ [] then scores.sum / (scores.length : ℚ) else 0
    quality_threshold := qualityThreshold }

/-- Phase of one batch task with respect to the concurrency gate: not yet
admitted (`pending`, waiting at `async with self.semaphore`), holding a
semaphore slot (`inFlight`, covering the whole retry lifetime of
`query_with_retry` including its backoff sleeps), or finished (`done`, slot
released by the `async with` epilogue on every exit path). -/
inductive TaskPhase where
  | pending : TaskPhase
  | inFlight : TaskPhase
  | done : TaskPhase
deriving DecidableEq

/-- State of a `process_batch` run under asyncio's single-threaded
cooperative scheduler: the free-slot count of `asyncio.Semaphore(limit)`
and the phase of each task. -/
structure BatchState where
  sem : Nat
  phases : List TaskPhase
deriving DecidableEq

/-- Number of tasks currently holding a semaphore slot. -/
def inFlightCount (s : BatchState) : Nat :=
  (s.phases.filter (fun p => p = TaskPhase.inFlight)).length

/-- One scheduler step of the batch run.  `acquire` models
`Semaphore.__aenter__` succeeding (only when a slot is free); `work` models
any resumption inside the guarded block — an `ask` call returning, a parse
attempt, a backoff sleep — none of which touch the gate; `finish` models
leaving the `async with` block, which releases the slot unconditionally,
whether the body produced a record (`ok = true`) or raised (`ok = false`). -/
inductive BatchStep : BatchState → BatchState → Prop
  | acquire (s : BatchState) (i : Nat) :
      s.phases.get? i = some .pending → 0 < s.sem →
      BatchStep s ⟨s.sem - 1, s.phases.set i .inFlight⟩
  | work (s : BatchState) (i : Nat) :
      s.phases.get? i = some .inFlight →
      BatchStep s s
  | finish (s : BatchState) (i : Nat) (ok : Bool) :
      s.phases.get? i = some .inFlight →
      BatchStep s ⟨s.sem + 1, s.phases.set i .done⟩

/-- States reachable by a batch of `n` tasks under a gate of capacity
`limit`, starting with all slots free and every task pending. -/
inductive BatchReach (limit n : Nat) : BatchState → Prop
  | init : BatchReach limit n ⟨limit, List.replicate n .pending⟩
  | step {s s' : BatchState} : BatchReach limit n s → BatchStep s s' → BatchReach limit n s'

/-- `format_answer_for_csv`'s `ref_id` cell: the JSON dump of the list when
it is non-empty, the literal `"[]"` otherwise. -/
def refIdCsvCell (refs : List Str) : Str :=
  if refs = [] then "[]".toList else pyJsonDumps refs

/-- `format_answer_for_csv`: the CSV row for one record. -/
def formatAnswerForCsv (a : RAGAnswer) : List Str :=
  [a.id, a.question, a.answer, a.answer_value, a.answer_unit,
   refIdCsvCell a.ref_id, a.supporting_materials, a.explanation]

/-- The attempt at index `i` produces no parsed record (the call raises, or
it returns text on which the extractor either fails or raises). -/
def attemptNoRecord (ask : Nat → AskOutcome) (qid q : Str) (i : Nat) : Prop :=
  ∀ t r, ask i = .resp t → parseAnswerE t qid q ≠ .ok (some r)

/-- The attempt at index `i` ends in a caught exception whose message is
`m`: either the external call raised, or it returned text on which the
extractor raised. -/
def attemptRaised (ask : Nat → AskOutcome) (qid q : Str) (i : Nat) (m : Str) : Prop :=
  ask i = .exn m ∨ ∃ t, ask i = .resp t ∧ parseAnswerE t qid q = .error m

section RetryLemmas

variable (ask : Nat → AskOutcome) (qid q : Str)

/-- Run of the retry loop in which every attempt returns text that the
extractor cleanly fails on: the loop performs every remaining attempt and
ends in the parse-failure record built from the final response. -/
theorem qwrAux_all_parse_fail (mr : Nat) :
    ∀ rem attempt lastR lastE, attempt + rem = mr + 1 → 1 ≤ rem →
    (∀ i, attempt ≤ i → i ≤ mr → ∃ t, ask i = .resp t ∧ parseAnswerE t qid q = .ok none) →
    ∃ tl, ask mr = .resp tl ∧
      qwrAux ask qid q rem attempt lastR lastE =
        (failureRecord qid q (some tl) (some "格式解析失败".toList), rem) := by
  intro rem
  induction rem with
  | zero => omega
  | succ rem ih =>
    intro attempt lastR lastE hsum _ hall
    obtain ⟨t, hask, hparse⟩ := hall attempt (le_refl _) (by omega)
    cases rem with
    | zero =>
      have hmr : attempt = mr := by omega
      subst hmr
      exact ⟨t, hask, by simp [qwrAux, hask, hparse]⟩
    | succ rem' =>
      obtain ⟨tl, hl, hrec⟩ := ih (attempt + 1) (some t) lastE (by omega) (by omega)
        (fun i hi hi' => hall i (by omega) hi')
      exact ⟨tl, hl, by simp [qwrAux, hask, hparse, hrec]⟩

/-- Run of the retry loop in which no attempt produces a record and the
final attempt ends in a caught exception with message `m`: the loop
performs every remaining attempt and ends in the post-loop failure record
whose recorded error is `m`. -/
theorem qwrAux_exn_final (mr : Nat) (m : Str) :
    ∀ rem attempt lastR lastE, attempt + rem = mr + 1 → 1 ≤ rem →
    (∀ i, attempt ≤ i → i ≤ mr → attemptNoRecord ask qid q i) →
    attemptRaised ask qid q mr m →
    ∃ lr, qwrAux ask qid q rem attempt lastR lastE =
      (failureRecord qid q lr (some m), rem) := by
  intro rem
  induction rem with
  | zero => omega
  | succ rem ih =>
    intro attempt lastR lastE hsum _ hall hfin
    cases rem with
    | zero =>
      have hmr : attempt = mr := by omega
      subst hmr
      rcases hfin with hexn | ⟨t, hask, herr⟩
      · exact ⟨lastR, by simp [qwrAux, hexn]⟩
      · exact ⟨some t, by simp [qwrAux, hask, herr]⟩
    | succ rem' =>
      have hattempt : attempt < mr := by omega
      have step : ∀ lastR' lastE',
          (∃ lr, qwrAux ask qid q (rem' + 1) (attempt + 1) lastR' lastE' =
            (failureRecord qid q lr (some m), rem' + 1)) :=
        fun lastR' lastE' => ih (attempt + 1) lastR' lastE' (by omega) (by omega)
          (fun i hi hi' => hall i (by omega) hi') hfin
      cases hask : ask attempt with
      | exn m' =>
        obtain ⟨lr, hrec⟩ := step lastR (some m')
        exact ⟨lr, by simp [qwrAux, hask, hrec]⟩
      | resp t =>
        cases hparse : parseAnswerE t qid q with
        | error m' =>
          obtain ⟨lr, hrec⟩ := step (some t) (some m')
          exact ⟨lr, by simp [qwrAux, hask, hparse, hrec]⟩
        | ok o =>
          cases o with
          | none =>
            obtain ⟨lr, hrec⟩ := step (some t) lastE
            exact ⟨lr, by simp [qwrAux, hask, hparse, hrec]⟩
          | some r => exact absurd hparse (hall attempt (le_refl _) (by omega) t r hask)

end RetryLemmas

/-- Claim C10: `get_statistics` is total: on the empty results list every
count is 0 and both guarded ratios are 0 (no division-by-zero), and
whenever no record counts as successful the average-quality division is
likewise guarded and yields 0. -/
theorem getStatistics_total (qt : ℚ) :
    (getStatistics qt [] = ⟨0, 0, 0, 0, 0, qt⟩) ∧
    (∀ results : List RAGAnswer, (∀ r ∈ results, r.answer = failMarker) →
      (getStatistics qt results).successful = 0 ∧
      (getStatistics qt results).average_quality_score = 0) := by
  refine ⟨rfl, fun results hall => ?_⟩
  have hfilter : results.filter isSuccess = [] :=
    List.filter_eq_nil_iff.mpr (fun r hr => by simp [isSuccess, hall r hr])
  constructor
  · simp [getStatistics, hfilter]
  · simp [getStatistics, hfilter]

/-- Claim C10 witness: the statistics of an all-failed two-record batch. -/
theorem getStatistics_total_witness :
    (getStatistics (7/10) [] = ⟨0, 0, 0, 0, 0, 7/10⟩) ∧
    (getStatistics (7/10)
        [failureRecord "a".toList "qa".toList none none,
         failureRecord "b".toList "qb".toList none none]).average_quality_score = 0 := by
  refine ⟨(getStatistics_total (7/10)).1, ((getStatistics_total (7/10)).2 _ ?_).2⟩
  intro r hr
  fin_cases hr <;> rfl

/-- Claim C3 (code bug): on a raw text whose first brace span decodes as
JSON but fails record validation — here an embedded object whose `answer`
is `null` — `parse_answer` raises a pydantic `ValidationError` out of the
extractor instead of silently ignoring the embedded-object stage and
falling through, because `_try_parse_json` catches only
`json.JSONDecodeError` (the labelled stages wrap their own record
construction in `try/except`, so this is a slip): a genuinely undecodable
span such as `"\x7boops\x7d"` is silently ignored and the labelled stages
still parse the rest, as the second conjunct evaluates. -/
theorem parseAnswer_raises_on_decodable_invalid_object :
    parseAnswerE "\x7b\"answer\": null\x7d".toList "q1".toList "question".toList =
      .error "none is not an allowed value".toList ∧
    parseAnswerE "\x7boops\x7d\nAnswer: fine".toList "q1".toList "question".toList =
      .ok (labeledStages "\x7boops\x7d\nAnswer: fine".toList "q1".toList "question".toList) ∧
    parseAnswerE "\x7boops\x7d\nAnswer: fine".toList "q1".toList "question".toList =
      .ok (some ⟨"q1".toList, "question".toList, "fine".toList, isBlank, isBlank,
        [], isBlank, isBlank⟩) :=
  ⟨rfl, rfl, rfl⟩

/-- Claim C4: if the first response extracts successfully into a record,
`resolve` calls `ask` exactly once and returns that record unchanged for
every `maxRetries`; the record's quality score lies in [0,1] and, being
computed after the return, can never influence whether a retry occurs. -/
theorem queryWithRetry_no_retry_on_success (ask : Nat → AskOutcome)
    (qid q t : Str) (r : RAGAnswer) (mr : Nat)
    (h0 : ask 0 = .resp t) (hp : parseAnswerE t qid q = .ok (some r)) :
    queryWithRetry ask qid q mr = (r, 1) ∧
    0 ≤ calcQualityScore r ∧ calcQualityScore r ≤ 1 := by
  refine ⟨by simp [queryWithRetry, qwrAux, h0, hp], ?_, ?_⟩
  · unfold calcQualityScore
    refine le_min ?_ (by norm_num)
    have : ∀ (b : Prop) [Decidable b] (x : ℚ), 0 ≤ x → 0 ≤ (if b then x else 0) := by
      intro b _ x hx; split <;> simp [hx]
    refine add_nonneg (add_nonneg (add_nonneg (add_nonneg ?_ ?_) ?_) ?_) ?_ <;>
      apply this <;> norm_num
  · exact min_le_right _ _

/-- Claim C4 witness: an `ask` stub whose first response is the labelled
answer of the specification example returns after exactly one call. -/
theorem queryWithRetry_no_retry_on_success_witness :
    queryWithRetry (fun _ => .resp "Answer: 42 units\nAnswer Value: 42\nAnswer Unit: units".toList)
      "q1".toList "qq".toList 3 =
      (⟨"q1".toList, "qq".toList, "42 units".toList, "42".toList, "units".toList,
        [], isBlank, isBlank⟩, 1) :=
  (queryWithRetry_no_retry_on_success
    (fun _ => .resp "Answer: 42 units\nAnswer Value: 42\nAnswer Unit: units".toList)
    "q1".toList "qq".toList
    "Answer: 42 units\nAnswer Value: 42\nAnswer Unit: units".toList
    ⟨"q1".toList, "qq".toList, "42 units".toList, "42".toList, "units".toList,
      [], isBlank, isBlank⟩ 3 rfl rfl).1

/-- Claim C1: with an `ask` collaborator that on every call returns text on
which extraction cleanly fails, `resolve` with `maxRetries = 3` invokes
`ask` exactly 4 times (attempts 0..3) and returns the synthesized failure
record: `answer` is the failure marker (the source literal `"查询失败"`,
"query failed"), `answer_value` and `answer_unit` are the sentinel, and
`ref_id` is empty. -/
theorem queryWithRetry_retry_bound (ask : Nat → AskOutcome) (qid q : Str)
    (hall : ∀ i, i ≤ 3 → ∃ t, ask i = .resp t ∧ parseAnswerE t qid q = .ok none) :
    (queryWithRetry ask qid q 3).2 = 4 ∧
    (queryWithRetry ask qid q 3).1.answer = failMarker ∧
    (queryWithRetry ask qid q 3).1.answer_value = isBlank ∧
    (queryWithRetry ask qid q 3).1.answer_unit = isBlank ∧
    (queryWithRetry ask qid q 3).1.ref_id = [] := by
  obtain ⟨tl, -, hrun⟩ := qwrAux_all_parse_fail ask qid q 3 4 0 none none rfl
    (by omega) (fun i _ hi => hall i hi)
  rw [queryWithRetry, hrun]
  exact ⟨rfl, rfl, rfl, rfl, rfl⟩

/-- Claim C1 witness: a stub returning the unparsable text `"xyz"` on every
call is asked 4 times and yields the failure record. -/
theorem queryWithRetry_retry_bound_witness :
    (queryWithRetry (fun _ => .resp "xyz".toList) "q1".toList "qq".toList 3).2 = 4 ∧
    (queryWithRetry (fun _ => .resp "xyz".toList) "q1".toList "qq".toList 3).1.answer =
      failMarker :=
  have h := queryWithRetry_retry_bound (fun _ => .resp "xyz".toList) "q1".toList "qq".toList
    (fun _ _ => ⟨"xyz".toList, rfl, rfl⟩)
  ⟨h.1, h.2.1⟩

/-- Claim C2: whatever the external collaborator does — including raising
on any subset of attempts, and including the extractor raising on a
response — `resolve` returns a record and never propagates: when no attempt
yields a record and the final attempt ends in a caught exception with
message `m`, the result is the failure record, `ask`/the attempt body was
entered once per attempt (`maxRetries + 1` times), and `m` becomes the
recorded failure reason `"查询失败: " ++ m`. -/
theorem queryWithRetry_never_raises (ask : Nat → AskOutcome) (qid q m : Str) (mr : Nat)
    (hall : ∀ i, i ≤ mr → attemptNoRecord ask qid q i)
    (hfin : attemptRaised ask qid q mr m) :
    (queryWithRetry ask qid q mr).2 = mr + 1 ∧
    (queryWithRetry ask qid q mr).1.answer = failMarker ∧
    (queryWithRetry ask qid q mr).1.supporting_materials =
      pyStrip ("查询失败: ".toList ++ m) ∧
    (queryWithRetry ask qid q mr).1.ref_id = [] := by
  obtain ⟨lr, hrun⟩ := qwrAux_exn_final ask qid q mr m (mr + 1) 0 none none (by omega)
    (by omega) (fun i _ hi => hall i hi) hfin
  rw [queryWithRetry, hrun]
  exact ⟨rfl, rfl, rfl, rfl⟩

/-- Claim C2 witness: a stub that raises `"boom"` on every call exhausts
all 4 attempts and the failure record carries the exception's message. -/
theorem queryWithRetry_never_raises_witness :
    (queryWithRetry (fun _ => .exn "boom".toList) "q1".toList "qq".toList 3).2 = 4 ∧
    (queryWithRetry (fun _ => .exn "boom".toList) "q1".toList "qq".toList 3).1.supporting_materials =
      "查询失败: boom".toList := by
  have h := queryWithRetry_never_raises (fun _ => .exn "boom".toList) "q1".toList "qq".toList
    "boom".toList 3 (fun _ _ t r ht => by cases ht) (Or.inl rfl)
  exact ⟨h.1, h.2.2.1.trans (by decide)⟩

/-- Claim C5: `process_batch` returns exactly one record per input, in
input order regardless of completion order (each task writes only its own
slot of the `asyncio.gather` result): the `i`-th output is determined by
the `i`-th question and its own outcome alone — an item whose body raises
becomes a failure record in its own slot, and changing any sibling's
outcome cannot change it. -/
theorem processBatch_ordered (qs : List (Str × Str)) (behav behav' : Nat → ItemOutcome) :
    (processBatch qs behav).length = qs.length ∧
    (∀ i qid qtext, qs[i]? = some (qid, qtext) →
      (processBatch qs behav)[i]? =
        some (match behav i with
              | .ok r => r
              | .raise m => failureRecord qid qtext none (some m))) ∧
    (∀ i, behav i = behav' i →
      (processBatch qs behav)[i]? = (processBatch qs behav')[i]?) := by
  refine ⟨by simp [processBatch], fun i qid qtext hq => ?_, fun i hb => ?_⟩
  · rw [processBatch, List.getElem?_map, List.getElem?_enum, hq]
    rfl
  · rw [processBatch, processBatch, List.getElem?_map, List.getElem?_map,
      List.getElem?_enum]
    cases qs[i]? with
    | none => rfl
    | some p => simp [runSingle, hb]

/-- Claim C5 witness: in a three-item batch where the middle item raises,
the outputs stay in input order with the failure record in the middle
slot. -/
theorem processBatch_ordered_witness :
    (processBatch [("1".toList, "qa".toList), ("2".toList, "qb".toList), ("3".toList, "qc".toList)]
      (fun i => if i = 1 then .raise "boom".toList
                else .ok ⟨(toString i).toList, [], "ok".toList, isBlank, isBlank, [], isBlank, isBlank⟩))[1]? =
      some (failureRecord "2".toList "qb".toList none (some "boom".toList)) := by
  have h := (processBatch_ordered
    [("1".toList, "qa".toList), ("2".toList, "qb".toList), ("3".toList, "qc".toList)]
    (fun i => if i = 1 then .raise "boom".toList
              else .ok ⟨(toString i).toList, [], "ok".toList, isBlank, isBlank, [], isBlank, isBlank⟩)
    (fun _ => .ok ⟨[], [], [], [], [], [], [], []⟩)).2.1 1 "2".toList "qb".toList rfl
  exact h

/-- Claim C8 counterexample: an `ask` stub that always returns one fixed
unparsable 201-character response (a lone opening brace followed by 200
`z`s).  Retries are exhausted and a failure record is synthesized, but its
`explanation` is not the response truncated to at most 200 characters with
an ellipsis: the source prepends the marker `"最后响应: "` ("last
response:"), so the field differs from the claimed copy and is longer than
200 characters; nor is it the no-response placeholder. -/
theorem failureExplanation_not_plain_truncation :
    (queryWithRetry (fun _ => .resp ('\x7b' :: List.replicate 200 'z'))
        "q1".toList "qq".toList 3).1.answer = failMarker ∧
    (queryWithRetry (fun _ => .resp ('\x7b' :: List.replicate 200 'z'))
        "q1".toList "qq".toList 3).1.explanation ≠
      ('\x7b' :: List.replicate 200 'z').take 200 ++ "...".toList ∧
    200 < (queryWithRetry (fun _ => .resp ('\x7b' :: List.replicate 200 'z'))
        "q1".toList "qq".toList 3).1.explanation.length ∧
    (queryWithRetry (fun _ => .resp ('\x7b' :: List.replicate 200 'z'))
        "q1".toList "qq".toList 3).1.explanation ≠ "无响应".toList := by
  refine ⟨by decide, by decide, by decide, by decide⟩

/-- Claim C8 as amended: when retries are exhausted on clean extraction
failures, the failure record's `explanation` carries (after the record
validator's whitespace strip) the marker `"最后响应: "` followed by the
first 200 characters of the last raw response and an ellipsis when that
response exceeds 200 characters; the response itself when it is non-empty
and at most 200 characters; and the placeholder `"无响应"` when the last
response was empty. -/
theorem failureExplanation_truncation_rule (ask : Nat → AskOutcome) (qid q : Str) (mr : Nat)
    (hall : ∀ i, i ≤ mr → ∃ t, ask i = .resp t ∧ parseAnswerE t qid q = .ok none) :
    ∃ tl, ask mr = .resp tl ∧
      (queryWithRetry ask qid q mr).1.answer = failMarker ∧
      (queryWithRetry ask qid q mr).1.explanation =
        pyStrip (if 200 < tl.length then "最后响应: ".toList ++ tl.take 200 ++ "...".toList
                 else if tl = [] then "无响应".toList else tl) := by
  obtain ⟨tl, hask, hrun⟩ := qwrAux_all_parse_fail ask qid q mr (mr + 1) 0 none none
    (by omega) (by omega) (fun i _ hi => hall i hi)
  rw [queryWithRetry, hrun]
  exact ⟨tl, hask, rfl, rfl⟩

/-- Claim C8 amended witness: a short response is carried verbatim. -/
theorem failureExplanation_truncation_rule_witness :
    (∃ tl, (fun (_ : Nat) => AskOutcome.resp "xyz".toList) 0 = .resp tl ∧
      (queryWithRetry (fun _ => .resp "xyz".toList) "q1".toList "qq".toList 0).1.answer =
        failMarker ∧
      (queryWithRetry (fun _ => .resp "xyz".toList) "q1".toList "qq".toList 0).1.explanation =
        pyStrip (if 200 < "xyz".toList.length then
                   "最后响应: ".toList ++ "xyz".toList.take 200 ++ "...".toList
                 else if "xyz".toList = [] then "无响应".toList else "xyz".toList)) ∧
    (queryWithRetry (fun _ => .resp "xyz".toList) "q1".toList "qq".toList 0).1.explanation =
      "xyz".toList := by
  have h := failureExplanation_truncation_rule (fun _ => .resp "xyz".toList)
    "q1".toList "qq".toList 0 (fun _ _ => ⟨"xyz".toList, rfl, rfl⟩)
  obtain ⟨tl, hask, hans, hexp⟩ := h
  have htl : tl = "xyz".toList := by cases hask; rfl
  subst htl
  exact ⟨⟨"xyz".toList, rfl, hans, hexp⟩, hexp.trans (by decide)⟩

/-- Setting a non-in-flight slot to in-flight grows the in-flight filter by
one. -/
theorem filter_length_set_to (l : List TaskPhase) :
    ∀ i, l.get? i = some .pending →
    ((l.set i .inFlight).filter (fun p => p = TaskPhase.inFlight)).length =
      (l.filter (fun p => p = TaskPhase.inFlight)).length + 1 := by
  induction l with
  | nil => intro i h; cases h
  | cons x xs ih =>
    intro i h
    cases i with
    | zero =>
      have hx : x = .pending := by simpa using h
      subst hx
      simp [List.set, List.filter_cons]
    | succ j =>
      have h' : xs.get? j = some .pending := by simpa using h
      simp only [List.set, List.filter_cons]
      split <;> simp [ih j h']

/-- Setting an in-flight slot to done shrinks the in-flight filter by one. -/
theorem filter_length_set_from (l : List TaskPhase) :
    ∀ i, l.get? i = some .inFlight →
    ((l.set i .done).filter (fun p => p = TaskPhase.inFlight)).length + 1 =
      (l.filter (fun p => p = TaskPhase.inFlight)).length := by
  induction l with
  | nil => intro i h; cases h
  | cons x xs ih =>
    intro i h
    cases i with
    | zero =>
      have hx : x = .inFlight := by simpa using h
      subst hx
      simp [List.set, List.filter_cons]
    | succ j =>
      have h' : xs.get? j = some .inFlight := by simpa using h
      simp only [List.set, List.filter_cons]
      split <;> simp [← ih j h']

/-- The gate invariant of a batch run: free slots plus in-flight tasks
always equal the semaphore capacity, and the task vector keeps its length. -/
theorem batchReach_invariant {limit n : Nat} {s : BatchState} (h : BatchReach limit n s) :
    inFlightCount s + s.sem = limit ∧ s.phases.length = n := by
  induction h with
  | init =>
    refine ⟨?_, by simp⟩
    have hrep : (List.replicate n TaskPhase.pending).filter
        (fun p => p = TaskPhase.inFlight) = [] := by
      induction n with
      | zero => rfl
      | succ k ih => simp [List.replicate_succ, List.filter_cons, ih]
    simp [inFlightCount, hrep]
  | @step s s' hr hs ih =>
    cases hs with
    | acquire i hp hsem =>
      have hc : inFlightCount ⟨s.sem - 1, s.phases.set i .inFlight⟩ =
          inFlightCount s + 1 := filter_length_set_to s.phases i hp
      have h1 := ih.1
      exact ⟨by rw [hc]; dsimp only; omega, by simpa using ih.2⟩
    | work i hp => exact ih
    | finish i ok hp =>
      have hc : inFlightCount ⟨s.sem + 1, s.phases.set i .done⟩ + 1 =
          inFlightCount s := filter_length_set_from s.phases i hp
      have h1 := ih.1
      exact ⟨by dsimp only; omega, by simpa using ih.2⟩

/-- Claim C9: in every reachable state of a batch run with
`concurrencyLimit = 2` and 5 tasks, at most 2 tasks hold a semaphore slot
(are in flight) simultaneously.  A slot is held for the task's whole retry
lifetime — the model's `work` steps (calls, parses, backoff sleeps) never
touch the gate — and `finish` releases it on every exit path, successful or
raising. -/
theorem batch_concurrency_bound (s : BatchState) (h : BatchReach 2 5 s) :
    inFlightCount s ≤ 2 := by
  have hinv := (batchReach_invariant h).1
  omega

/-- Claim C9 witness: a run that admits tasks 0 and 1, lets task 0 work and
then fail (releasing its slot), and admits task 2, reaches a state with two
tasks in flight — within the bound. -/
theorem batch_concurrency_bound_witness :
    BatchReach 2 5 ⟨0, [.done, .inFlight, .inFlight, .pending, .pending]⟩ ∧
    inFlightCount ⟨0, [.done, .inFlight, .inFlight, .pending, .pending]⟩ ≤ 2 := by
  have h0 : BatchReach 2 5 ⟨2, List.replicate 5 .pending⟩ := .init
  have h1 : BatchReach 2 5 ⟨1, [.inFlight, .pending, .pending, .pending, .pending]⟩ :=
    h0.step (.acquire _ 0 rfl (by decide))
  have h2 : BatchReach 2 5 ⟨0, [.inFlight, .inFlight, .pending, .pending, .pending]⟩ :=
    h1.step (.acquire _ 1 rfl (by decide))
  have h3 : BatchReach 2 5 ⟨0, [.inFlight, .inFlight, .pending, .pending, .pending]⟩ :=
    h2.step (.work _ 0 rfl)
  have h4 : BatchReach 2 5 ⟨1, [.done, .inFlight, .pending, .pending, .pending]⟩ :=
    h3.step (.finish _ 0 false rfl)
  have h5 : BatchReach 2 5 ⟨0, [.done, .inFlight, .inFlight, .pending, .pending]⟩ :=
    h4.step (.acquire _ 2 rfl (by decide))
  exact ⟨h5, batch_concurrency_bound _ h5⟩

/-- Claim C6: `ref_id` normalization of a string input, following the
source's cascade on the trimmed input: the sentinel or an empty/whitespace
input yields the empty sequence; an input that starts with `[`, ends with
`]` and decodes as a JSON array yields the decoded list; otherwise an input
containing a comma is split on commas with each piece trimmed of
surrounding whitespace and then of surrounding quote characters; otherwise
the single bare token, trimmed the same way, is the one element. -/
theorem parseRefId_normalization (v : Str) :
    (pyStrip v = isBlank ∨ pyStrip v = [] → parseRefId v = []) ∧
    (∀ xs, (pyStrip v).head? = some '[' → (pyStrip v).getLast? = some ']' →
      pyJsonLoads (pyStrip v) = some (.arr xs) → parseRefId v = xs) ∧
    (pyStrip v ≠ isBlank →
      (¬ ∃ xs, (pyStrip v).head? = some '[' ∧ (pyStrip v).getLast? = some ']' ∧
        pyJsonLoads (pyStrip v) = some (.arr xs)) →
      ',' ∈ pyStrip v →
      parseRefId v =
        (pySplit ',' (pyStrip v)).map (fun p => .str (stripQuotes (pyStrip p)))) ∧
    (pyStrip v ≠ isBlank → pyStrip v ≠ [] →
      (¬ ∃ xs, (pyStrip v).head? = some '[' ∧ (pyStrip v).getLast? = some ']' ∧
        pyJsonLoads (pyStrip v) = some (.arr xs)) →
      ',' ∉ pyStrip v →
      parseRefId v = [.str (stripQuotes (pyStrip (pyStrip v)))]) := by
  set t := pyStrip v with ht
  have hbranch : ∀ (hne : ¬(t = isBlank || t = []) = true),
      parseRefId v =
        (match (if t.head? = some '[' && t.getLast? = some ']' then
                  match pyJsonLoads t with
                  | some (.arr xs) => some xs
                  | _ => none
                else none : Option (List Json)) with
         | some xs => xs
         | none =>
           if ',' ∈ t then (pySplit ',' t).map (fun p => .str (stripQuotes (pyStrip p)))
           else [.str (stripQuotes (pyStrip t))]) := by
    intro hne
    rw [parseRefId, ← ht, if_neg (by simpa using hne)]
  refine ⟨?_, ?_, ?_, ?_⟩
  · intro h
    rw [parseRefId, ← ht, if_pos (by rcases h with h | h <;> simp [h])]
  · intro xs hhead hlast hloads
    have hne : ¬(t = isBlank || t = []) = true := by
      intro hc
      rcases (by simpa using hc : t = isBlank ∨ t = []) with h | h
      · rw [h] at hhead
        exact absurd hhead (by decide)
      · rw [h] at hhead
        exact absurd hhead (by decide)
    rw [hbranch hne, if_pos (by simp [hhead, hlast]), hloads]
  · intro hsent hjson hcomma
    have hne : ¬(t = isBlank || t = []) = true := by
      intro hc
      rcases (by simpa using hc : t = isBlank ∨ t = []) with h | h
      · exact hsent h
      · rw [h] at hcomma
        exact absurd hcomma (by decide)
    rw [hbranch hne]
    have hnone : (if t.head? = some '[' && t.getLast? = some ']' then
        match pyJsonLoads t with
        | some (.arr xs) => some xs
        | _ => none
      else none : Option (List Json)) = none := by
      by_cases hc : (t.head? = some '[' && t.getLast? = some ']') = true
      · rw [if_pos hc]
        obtain ⟨h1, h2⟩ := (by simpa using hc : t.head? = some '[' ∧ t.getLast? = some ']')
        cases hl : pyJsonLoads t with
        | none => rfl
        | some j =>
          cases j with
          | arr xs =>
            exact absurd ⟨xs, h1, h2, hl⟩ hjson
          | null => rfl
          | bool b => rfl
          | int n => rfl
          | str s => rfl
          | obj kvs => rfl
      · rw [if_neg hc]
    rw [hnone]
    simp [hcomma]
  · intro hsent hnil hjson hcomma
    have hne : ¬(t = isBlank || t = []) = true := by
      intro hc
      rcases (by simpa using hc : t = isBlank ∨ t = []) with h | h
      · exact hsent h
      · exact hnil h
    rw [hbranch hne]
    have hnone : (if t.head? = some '[' && t.getLast? = some ']' then
        match pyJsonLoads t with
        | some (.arr xs) => some xs
        | _ => none
      else none : Option (List Json)) = none := by
      by_cases hc : (t.head? = some '[' && t.getLast? = some ']') = true
      · rw [if_pos hc]
        obtain ⟨h1, h2⟩ := (by simpa using hc : t.head? = some '[' ∧ t.getLast? = some ']')
        cases hl : pyJsonLoads t with
        | none => rfl
        | some j =>
          cases j with
          | arr xs =>
            exact absurd ⟨xs, h1, h2, hl⟩ hjson
          | null => rfl
          | bool b => rfl
          | int n => rfl
          | str s => rfl
          | obj kvs => rfl
      · rw [if_neg hc]
    rw [hnone]
    simp [hcomma]

/-- Claim C6 witness: the four branches at concrete inputs — a JSON-array
string, a comma-separated string with quotes and spaces, the sentinel, and
a bare token. -/
theorem parseRefId_normalization_witness :
    pyJsonLoads (pyStrip " [\"a\", \"b\"] ".toList) =
      some (.arr [.str "a".toList, .str "b".toList]) ∧
    parseRefId " [\"a\", \"b\"] ".toList = [.str "a".toList, .str "b".toList] ∧
    parseRefId "r1, \"r2\" ,'r3'".toList =
      [.str "r1".toList, .str "r2".toList, .str "r3".toList] ∧
    parseRefId "is_blank".toList = [] ∧
    parseRefId " doc7 ".toList = [.str "doc7".toList] := by
  refine ⟨rfl, ?_, ?_, ?_, ?_⟩
  · exact (parseRefId_normalization _).2.1 _ rfl rfl rfl
  · exact ((parseRefId_normalization _).2.2.1 (by decide)
      (by intro ⟨xs, hh, _, _⟩; exact absurd hh (by decide)) (by decide)).trans rfl
  · exact (parseRefId_normalization _).1 (Or.inl rfl)
  · exact ((parseRefId_normalization _).2.2.2 (by decide) (by decide)
      (by intro ⟨xs, hh, _, _⟩; exact absurd hh (by decide)) (by decide)).trans rfl

theorem hexVal_hexDig : ∀ d, d < 16 → hexVal (hexDig d) = some d := by decide

theorem hex4Val_hex4 (n : Nat) (h : n < 0x10000) :
    hex4Val (hexDig (n / 4096 % 16)) (hexDig (n / 256 % 16)) (hexDig (n / 16 % 16))
      (hexDig (n % 16)) = some n := by
  rw [hex4Val, hexVal_hexDig _ (by omega), hexVal_hexDig _ (by omega),
    hexVal_hexDig _ (by omega), hexVal_hexDig _ (by omega)]
  dsimp only
  exact congrArg some (by omega)

theorem psbF_shortEsc (e ec : Char) (hesc : escChar e = some ec) (hne : e ≠ 'u')
    (rest : Str) (fuel : Nat) :
    psbF (fuel + 1) ('\\' :: e :: rest) =
      (psbF fuel rest).map (fun p => (ec :: p.1, p.2)) := by
  simp [psbF, hne, hesc]
  cases psbF fuel rest <;> rfl

theorem psbF_litChar (c : Char) (h1 : c ≠ '"') (h2 : c ≠ '\\') (h20 : ¬ c.toNat < 0x20)
    (rest : Str) (fuel : Nat) :
    psbF (fuel + 1) (c :: rest) =
      (psbF fuel rest).map (fun p => (c :: p.1, p.2)) := by
  simp only [psbF]
  rw [if_neg h1, if_neg h2, if_neg h20]
  cases psbF fuel rest <;> rfl

theorem psbF_uEsc (c : Char) (h9 : c.toNat < 0x10000)
    (hns1 : ¬(0xD800 ≤ c.toNat ∧ c.toNat ≤ 0xDBFF))
    (hns2 : ¬(0xDC00 ≤ c.toNat ∧ c.toNat ≤ 0xDFFF)) (rest : Str) (fuel : Nat) :
    psbF (fuel + 1) ('\\' :: 'u' :: hex4 c.toNat ++ rest) =
      (psbF fuel rest).map (fun p => (c :: p.1, p.2)) := by
  have hx := hex4Val_hex4 c.toNat h9
  simp only [hex4, List.cons_append, List.nil_append, psbF, hx]
  simp only [reduceIte, reduceCtorEq]
  rw [if_neg hns1, if_neg hns2, Char.ofNat_toNat]
  cases psbF fuel rest <;> rfl

theorem psbF_surrStep (d3 d2 d1 d0 g3 g2 g1 g0 : Char) (n m : Nat) (rest : Str) (fuel : Nat)
    (hx1 : hex4Val d3 d2 d1 d0 = some n) (hn : 0xD800 ≤ n ∧ n ≤ 0xDBFF)
    (hx2 : hex4Val g3 g2 g1 g0 = some m) (hm : 0xDC00 ≤ m ∧ m ≤ 0xDFFF) :
    psbF (fuel + 1) ('\\' :: 'u' :: d3 :: d2 :: d1 :: d0 :: '\\' :: 'u' ::
        g3 :: g2 :: g1 :: g0 :: rest) =
      (psbF fuel rest).map
        (fun p => (Char.ofNat (0x10000 + (n - 0xD800) * 0x400 + (m - 0xDC00)) :: p.1, p.2)) := by
  simp only [psbF, reduceIte, and_self]
  rw [hx1]
  dsimp only
  rw [if_pos hn]
  rw [hx2]
  dsimp only
  rw [if_pos hm]
  cases psbF fuel rest <;> rfl

theorem psbF_surrEsc (c : Char) (h9 : 0x10000 ≤ c.toNat) (hle : c.toNat ≤ 0x10FFFF)
    (rest : Str) (fuel : Nat) :
    psbF (fuel + 1) ('\\' :: 'u' :: hex4 (0xD800 + (c.toNat - 0x10000) / 0x400) ++
        ('\\' :: 'u' :: hex4 (0xDC00 + (c.toNat - 0x10000) % 0x400)) ++ rest) =
      (psbF fuel rest).map (fun p => (c :: p.1, p.2)) := by
  have hxhi := hex4Val_hex4 (0xD800 + (c.toNat - 0x10000) / 0x400) (by omega)
  have hxlo := hex4Val_hex4 (0xDC00 + (c.toNat - 0x10000) % 0x400) (by omega)
  have hstep := psbF_surrStep _ _ _ _ _ _ _ _ _ _ rest fuel hxhi ⟨by omega, by omega⟩
    hxlo ⟨by omega, by omega⟩
  rw [show ('\\' :: 'u' :: hex4 (0xD800 + (c.toNat - 0x10000) / 0x400) ++
      ('\\' :: 'u' :: hex4 (0xDC00 + (c.toNat - 0x10000) % 0x400)) ++ rest : Str) =
    '\\' :: 'u' :: hexDig ((0xD800 + (c.toNat - 0x10000) / 0x400) / 4096 % 16) ::
      hexDig ((0xD800 + (c.toNat - 0x10000) / 0x400) / 256 % 16) ::
      hexDig ((0xD800 + (c.toNat - 0x10000) / 0x400) / 16 % 16) ::
      hexDig ((0xD800 + (c.toNat - 0x10000) / 0x400) % 16) :: '\\' :: 'u' ::
      hexDig ((0xDC00 + (c.toNat - 0x10000) % 0x400) / 4096 % 16) ::
      hexDig ((0xDC00 + (c.toNat - 0x10000) % 0x400) / 256 % 16) ::
      hexDig ((0xDC00 + (c.toNat - 0x10000) % 0x400) / 16 % 16) ::
      hexDig ((0xDC00 + (c.toNat - 0x10000) % 0x400) % 16) :: rest from by
    simp [hex4]]
  rw [hstep]
  rw [show 0x10000 + (0xD800 + (c.toNat - 0x10000) / 0x400 - 0xD800) * 0x400 +
      (0xDC00 + (c.toNat - 0x10000) % 0x400 - 0xDC00) = c.toNat from by omega]
  rw [Char.ofNat_toNat]

theorem psbF_escape (c : Char) (rest : Str) (fuel : Nat) :
    psbF (fuel + 1) (escapeChar c ++ rest) =
      (psbF fuel rest).map (fun p => (c :: p.1, p.2)) := by
  have hv : c.toNat < 0xD800 ∨ (0xDFFF < c.toNat ∧ c.toNat < 0x110000) := c.valid
  by_cases h1 : c = '"'
  · subst h1
    rw [show escapeChar '"' ++ rest = '\\' :: '"' :: rest from rfl]
    exact psbF_shortEsc '"' '"' rfl (by decide) rest fuel
  by_cases h2 : c = '\\'
  · subst h2
    rw [show escapeChar '\\' ++ rest = '\\' :: '\\' :: rest from rfl]
    exact psbF_shortEsc '\\' '\\' rfl (by decide) rest fuel
  by_cases h3 : c = '\n'
  · subst h3
    rw [show escapeChar '\n' ++ rest = '\\' :: 'n' :: rest from rfl]
    exact psbF_shortEsc 'n' '\n' rfl (by decide) rest fuel
  by_cases h4 : c = '\r'
  · subst h4
    rw [show escapeChar '\r' ++ rest = '\\' :: 'r' :: rest from rfl]
    exact psbF_shortEsc 'r' '\r' rfl (by decide) rest fuel
  by_cases h5 : c = '\t'
  · subst h5
    rw [show escapeChar '\t' ++ rest = '\\' :: 't' :: rest from rfl]
    exact psbF_shortEsc 't' '\t' rfl (by decide) rest fuel
  by_cases h6 : c = '\x08'
  · subst h6
    rw [show escapeChar '\x08' ++ rest = '\\' :: 'b' :: rest from rfl]
    exact psbF_shortEsc 'b' '\x08' rfl (by decide) rest fuel
  by_cases h7 : c = '\x0c'
  · subst h7
    rw [show escapeChar '\x0c' ++ rest = '\\' :: 'f' :: rest from rfl]
    exact psbF_shortEsc 'f' '\x0c' rfl (by decide) rest fuel
  by_cases h8 : 0x20 ≤ c.toNat ∧ c.toNat ≤ 0x7E
  · have he : escapeChar c = [c] := by simp [escapeChar, h1, h2, h3, h4, h5, h6, h7, h8]
    rw [he, List.singleton_append]
    exact psbF_litChar c h1 h2 (by omega) rest fuel
  by_cases h9 : c.toNat < 0x10000
  · have he : escapeChar c = '\\' :: 'u' :: hex4 c.toNat := by
      simp [escapeChar, h1, h2, h3, h4, h5, h6, h7, h8, h9]
    rw [he]
    exact psbF_uEsc c h9 (by omega) (by omega) rest fuel
  · have he : escapeChar c =
        '\\' :: 'u' :: hex4 (0xD800 + (c.toNat - 0x10000) / 0x400) ++
        ('\\' :: 'u' :: hex4 (0xDC00 + (c.toNat - 0x10000) % 0x400)) := by
      simp [escapeChar, h1, h2, h3, h4, h5, h6, h7, h8, h9]
    rw [he]
    rw [show ('\\' :: 'u' :: hex4 (0xD800 + (c.toNat - 0x10000) / 0x400) ++
        ('\\' :: 'u' :: hex4 (0xDC00 + (c.toNat - 0x10000) % 0x400))) ++ rest =
      '\\' :: 'u' :: hex4 (0xD800 + (c.toNat - 0x10000) / 0x400) ++
        ('\\' :: 'u' :: hex4 (0xDC00 + (c.toNat - 0x10000) % 0x400)) ++ rest from by
      simp [List.append_assoc]]
    exact psbF_surrEsc c (by omega) (by omega) rest fuel

theorem psbF_encode (s : Str) : ∀ (fuel : Nat) (rest : Str), s.length < fuel →
    psbF fuel (s.flatMap escapeChar ++ ('"' :: rest)) = some (s, rest) := by
  induction s with
  | nil =>
    intro fuel rest h
    cases fuel with
    | zero => omega
    | succ f => simp [psbF]
  | cons c s ih =>
    intro fuel rest h
    cases fuel with
    | zero => omega
    | succ f =>
      rw [List.flatMap_cons, List.append_assoc, psbF_escape,
        ih f rest (by simp at h; omega)]
      rfl

theorem escapeChar_length_pos (c : Char) : 0 < (escapeChar c).length := by
  unfold escapeChar
  split_ifs <;> simp [hex4]

theorem flatMap_escape_length (s : Str) : s.length ≤ (s.flatMap escapeChar).length := by
  induction s with
  | nil => simp
  | cons c s ih =>
    rw [List.flatMap_cons, List.length_append, List.length_cons]
    have := escapeChar_length_pos c
    omega

theorem parseStringBody_encode (s rest : Str) :
    parseStringBody (s.flatMap escapeChar ++ ('"' :: rest)) = some (s, rest) := by
  have hb := flatMap_escape_length s
  apply psbF_encode
  simp only [List.length_append, List.length_cons]
  omega

theorem skipWs_not_ws (c : Char) (t : Str) (h : isJsonWs c = false) :
    skipWs (c :: t) = c :: t := by
  simp [skipWs, h]

theorem skipWs_idem (u : Str) : skipWs (skipWs u) = skipWs u := by
  induction u with
  | nil => rfl
  | cons c t ih =>
    by_cases h : isJsonWs c
    · simp [skipWs, h, ih]
    · simp [skipWs, h]

theorem pj_value_unfold (fuel : Nat) (s : Str) :
    pj (fuel + 1) .value s =
      (match skipWs s with
       | [] => none
       | c :: r =>
         if c = '\x7b' then
           match skipWs r with
           | '\x7d' :: rem => some (.obj [], rem)
           | r' => pj fuel (.objElems []) r'
         else if c = '[' then
           match skipWs r with
           | ']' :: rem => some (.arr [], rem)
           | r' => pj fuel (.arrElems []) r'
         else if c = '"' then
           match parseStringBody r with
           | some (str, rem) => some (.str str, rem)
           | none => none
         else
           match c :: r with
           | 't' :: 'r' :: 'u' :: 'e' :: rem => some (.bool true, rem)
           | 'f' :: 'a' :: 'l' :: 's' :: 'e' :: rem => some (.bool false, rem)
           | 'n' :: 'u' :: 'l' :: 'l' :: rem => some (.null, rem)
           | t =>
             match parseIntTok t with
             | some (n, rem) => some (.int n, rem)
             | none => none) := by
  simp only [pj]

theorem pj_arr_unfold (fuel : Nat) (acc : List Json) (s : Str) :
    pj (fuel + 1) (.arrElems acc) s =
      (match pj fuel .value s with
       | some (v, rem) =>
         (match skipWs rem with
          | ',' :: r => pj fuel (.arrElems (acc ++ [v])) r
          | ']' :: r => some (.arr (acc ++ [v]), r)
          | _ => none)
       | none => none) := by
  simp only [pj]

theorem pj_value_skipWs (fuel : Nat) (u : Str) :
    pj (fuel + 1) .value u = pj (fuel + 1) .value (skipWs u) := by
  rw [pj_value_unfold, pj_value_unfold, skipWs_idem]

theorem pj_value_dumpString (fuel : Nat) (x : Str) (rest : Str) :
    pj (fuel + 1) .value (dumpString x ++ rest) = some (.str x, rest) := by
  rw [show dumpString x ++ rest = '"' :: (x.flatMap escapeChar ++ ('"' :: rest)) from by
    simp [dumpString]]
  rw [pj_value_unfold, skipWs_not_ws _ _ (by decide)]
  dsimp only
  rw [if_neg (by decide : ¬(('"' : Char) = '\x7b')),
    if_neg (by decide : ¬(('"' : Char) = '[')), if_pos rfl, parseStringBody_encode]

theorem pj_arrElems (l : List Str) : ∀ (acc : List Json) (rest u : Str) (fuel : Nat),
    l ≠ [] → 2 * l.length ≤ fuel → skipWs u = dumpElems l ++ (']' :: rest) →
    pj fuel (.arrElems acc) u = some (.arr (acc ++ l.map .str), rest) := by
  induction l with
  | nil => intro _ _ _ _ h; exact absurd rfl h
  | cons x t ih =>
    intro acc rest u fuel _ hfuel hu
    obtain ⟨f, rfl⟩ : ∃ f, fuel = f + 2 := ⟨fuel - 2, by simp at hfuel; omega⟩
    rw [pj_arr_unfold]
    cases t with
    | nil =>
      rw [pj_value_skipWs, hu,
        show dumpElems [x] ++ (']' :: rest) = dumpString x ++ (']' :: rest) from rfl,
        pj_value_dumpString]
      dsimp only
      rw [skipWs_not_ws _ _ (by decide)]
      rfl
    | cons y t2 =>
      rw [pj_value_skipWs, hu,
        show dumpElems (x :: y :: t2) ++ (']' :: rest) =
          dumpString x ++ (',' :: ' ' :: (dumpElems (y :: t2) ++ (']' :: rest))) from by
          simp [dumpElems],
        pj_value_dumpString]
      dsimp only
      rw [skipWs_not_ws _ _ (by decide)]
      have hrec := ih (acc ++ [Json.str x]) rest
        (' ' :: (dumpElems (y :: t2) ++ (']' :: rest))) (f + 1)
        (by simp) (by simp at hfuel ⊢; omega)
        (by
          rw [show skipWs (' ' :: (dumpElems (y :: t2) ++ (']' :: rest))) =
              skipWs (dumpElems (y :: t2) ++ (']' :: rest)) from by
            simp [skipWs, isJsonWs]]
          obtain ⟨tail, htail⟩ : ∃ tail,
              dumpElems (y :: t2) ++ (']' :: rest) = '"' :: tail := by
            cases t2 with
            | nil =>
              exact ⟨y.flatMap escapeChar ++ ('"' :: ']' :: rest), by
                simp [dumpElems, dumpString]⟩
            | cons z t3 =>
              exact ⟨y.flatMap escapeChar ++
                ('"' :: ',' :: ' ' :: (dumpElems (z :: t3) ++ (']' :: rest))), by
                simp [dumpElems, dumpString]⟩
          rw [htail, skipWs_not_ws _ _ (by decide), ← htail])
      simp [hrec]

theorem dumpString_length (x : Str) : 2 ≤ (dumpString x).length := by
  simp [dumpString]

theorem dumpElems_length (l : List Str) : l.length ≤ (dumpElems l).length := by
  induction l with
  | nil => simp [dumpElems]
  | cons x t ih =>
    cases t with
    | nil => have := dumpString_length x; simp [dumpElems]; omega
    | cons y t2 =>
      have := dumpString_length x
      simp only [dumpElems, List.length_append, List.length_cons] at ih ⊢
      omega

theorem pyJsonLoads_dumps (l : List Str) :
    pyJsonLoads (pyJsonDumps l) = some (.arr (l.map .str)) := by
  cases l with
  | nil => rfl
  | cons x t =>
    unfold pyJsonLoads pyJsonDumps
    obtain ⟨f, hf⟩ : ∃ f, 2 * ('[' :: dumpElems (x :: t) ++ [']']).length + 4 = f + 2 :=
      ⟨2 * ('[' :: dumpElems (x :: t) ++ [']']).length + 2, by omega⟩
    rw [hf, pj_value_unfold]
    rw [show ('[' :: dumpElems (x :: t) ++ ([']'] : Str)) =
      '[' :: (dumpElems (x :: t) ++ ([']'] : Str)) from by simp]
    rw [skipWs_not_ws _ _ (by decide)]
    dsimp only
    rw [if_neg (by decide : ¬(('[' : Char) = '\x7b')), if_pos rfl]
    obtain ⟨tail, htail⟩ : ∃ tail, dumpElems (x :: t) ++ ([']'] : Str) = '"' :: tail := by
      cases t with
      | nil => exact ⟨x.flatMap escapeChar ++ ('"' :: [']']), by simp [dumpElems, dumpString]⟩
      | cons y t2 =>
        exact ⟨x.flatMap escapeChar ++
          ('"' :: ',' :: ' ' :: (dumpElems (y :: t2) ++ ([']'] : Str))), by
          simp [dumpElems, dumpString]⟩
    have harr := pj_arrElems (x :: t) [] [] (dumpElems (x :: t) ++ ([']'] : Str)) (f + 1)
      (by simp) ?_ ?_
    · rw [htail, skipWs_not_ws _ _ (by decide)]
      have harr2 : pj (f + 1) (PMode.arrElems []) ('"' :: tail) =
          some (Json.arr ([] ++ List.map Json.str (x :: t)), []) := by
        rw [← htail]; exact harr
      simp [harr2, skipWs]
    · have h1 := dumpElems_length (x :: t)
      simp only [List.length_cons, List.length_append] at hf h1 ⊢
      omega
    · rw [htail, skipWs_not_ws _ _ (by decide)]

theorem pyStrip_sandwich (a b : Char) (m : Str) (ha : isPyWs a = false) (hb : isPyWs b = false) :
    pyStrip (a :: (m ++ [b])) = a :: (m ++ [b]) := by
  unfold pyStrip
  rw [List.dropWhile_cons_of_neg (by simp [ha])]
  rw [show (a :: (m ++ [b])).reverse = b :: (m.reverse ++ [a]) from by simp]
  rw [List.dropWhile_cons_of_neg (by simp [hb])]
  simp

theorem parseRefId_dumps (l : List Str) :
    parseRefId (pyJsonDumps l) = l.map .str := by
  have hshape : pyJsonDumps l = '[' :: (dumpElems l ++ [']']) := rfl
  have hstrip : pyStrip (pyJsonDumps l) = pyJsonDumps l := by
    rw [hshape]; exact pyStrip_sandwich '[' ']' (dumpElems l) (by decide) (by decide)
  have hhead : (pyJsonDumps l).head? = some '[' := by rw [hshape]; rfl
  have hlast : (pyJsonDumps l).getLast? = some ']' := by
    rw [hshape, ← List.cons_append]
    exact List.getLast?_concat _
  have hne1 : pyJsonDumps l ≠ isBlank := by
    rw [hshape]
    intro h
    simp [isBlank] at h
  have hne2 : pyJsonDumps l ≠ [] := by rw [hshape]; simp
  unfold parseRefId
  rw [hstrip]
  rw [if_neg (by simp [hne1, hne2])]
  rw [if_pos (by simp [hhead, hlast])]
  rw [pyJsonLoads_dumps]

theorem coerceElems_map_str (l : List Str) : coerceElems (l.map .str) = .ok l := by
  induction l with
  | nil => rfl
  | cons x t ih => simp [coerceElems, coerceElem, ih]

/-- Claim C7: `ref_id` round-trip through the CSV serialization — encoding
a sequence of 0, 1, or 3 strings with `format_answer_for_csv`'s cell rule
(JSON dump, `"[]"` for the empty sequence) and decoding the resulting
string back through `parse_ref_id` normalization (including the element
validation) yields the original sequence. -/
theorem refId_roundTrip (l : List Str) (h : l.length = 0 ∨ l.length = 1 ∨ l.length = 3) :
    parseRefId (refIdCsvCell l) = l.map .str ∧
    coerceElems (parseRefId (refIdCsvCell l)) = .ok l := by
  have hcell : parseRefId (refIdCsvCell l) = l.map .str := by
    unfold refIdCsvCell
    by_cases hl : l = []
    · subst hl; rfl
    · rw [if_neg hl]
      exact parseRefId_dumps l
  exact ⟨hcell, hcell ▸ coerceElems_map_str l⟩

/-- Claim C7 witness: the round trip at a concrete three-element sequence
(and, by direct evaluation, at the empty and singleton sequences). -/
theorem refId_roundTrip_witness :
    ([("a".toList : Str), "b".toList, "c".toList].length = 0 ∨
      [("a".toList : Str), "b".toList, "c".toList].length = 1 ∨
      [("a".toList : Str), "b".toList, "c".toList].length = 3) ∧
    parseRefId (refIdCsvCell [("a".toList : Str), "b".toList, "c".toList]) =
      [Json.str "a".toList, Json.str "b".toList, Json.str "c".toList] ∧
    coerceElems (parseRefId (refIdCsvCell [("a".toList : Str), "b".toList, "c".toList])) =
      .ok [("a".toList : Str), "b".toList, "c".toList] := by
  have h := refId_roundTrip [("a".toList : Str), "b".toList, "c".toList]
    (Or.inr (Or.inr rfl))
  exact ⟨Or.inr (Or.inr rfl), h.1.trans rfl, h.2⟩

end KaggleRAG

